import Mathlib

/-
Verification of logo_extractor.py against its specification.

The Python source is shallowly embedded: pure string manipulation is
translated to Lean functions over String and List Char; the external
collaborators (the requests HTTP client, the PIL image decoder, the
pandas table loader, urllib URL parsing and the file system) are
represented by explicit parameters and by returned write records, so
every definition is executable and every effect is visible in a result
value.
-/

namespace LogoExtractor

/-- Removes the list p from the front of l, returning the remainder, or
none when l does not start with p. This is the primitive used to model
the Python string operations startswith, endswith, the substring
operator and split. -/
def stripPre? : List Char → List Char → Option (List Char)
  | [], l => some l
  | _ :: _, [] => none
  | s :: ss, c :: cs => if c = s then stripPre? ss cs else none

/-- True when sep occurs as a contiguous run inside l; models the Python
substring operator applied to character sequences. -/
def hasOcc (sep : List Char) : List Char → Bool
  | [] => (stripPre? sep []).isSome
  | c :: cs => (stripPre? sep (c :: cs)).isSome || hasOcc sep cs

/-- Python expression pat in s. -/
def strContains (s pat : String) : Bool :=
  hasOcc pat.toList s.toList

/-- Python expression s.startswith(p). -/
def py_startswith (s p : String) : Bool :=
  (stripPre? p.toList s.toList).isSome

/-- Python expression s.endswith(p). -/
def py_endswith (s p : String) : Bool :=
  (stripPre? p.toList.reverse s.toList.reverse).isSome

/-- Python expression s.lower(), restricted to the ASCII letters that
appear in the strings this program compares. -/
def py_lower (s : String) : String :=
  String.mk (s.toList.map Char.toLower)

/-- Worker for the model of Python split: splits the character list on
the nonempty separator c0 :: sep0, non-overlapping and left to right;
cur holds the reversed characters of the piece under construction. The
fuel argument bounds the recursion depth; whenever fuel is at least the
length of the list the result is the exact Python behaviour, and the
fuel-exhausted clause is chosen so that the no-occurrence lemma holds
for every fuel. -/
def splitGo (c0 : Char) (sep0 : List Char) : Nat → List Char → List Char → List (List Char)
  | 0, l, cur => [cur.reverse ++ l]
  | _ + 1, [], cur => [cur.reverse]
  | fuel + 1, c :: cs, cur =>
    match stripPre? (c0 :: sep0) (c :: cs) with
    | some rest => cur.reverse :: splitGo c0 sep0 fuel rest []
    | none => splitGo c0 sep0 fuel cs (c :: cur)

/-- Python expression s.split(sep) for a nonempty separator (Python
raises ValueError on an empty separator; that case is never reached
here and is modelled as the empty list). -/
def pySplit (s sep : String) : List String :=
  match sep.toList with
  | [] => []
  | c :: cs => (splitGo c cs s.toList.length s.toList []).map String.mk

/-- The characters after the first occurrence of sep in l, or none when
sep does not occur. Used to model urllib cutting a URL at the scheme
separator. -/
def drop_through (sep : List Char) : List Char → Option (List Char)
  | [] => none
  | c :: cs =>
    match stripPre? sep (c :: cs) with
    | some rest => some rest
    | none => drop_through sep cs

/-- The network-location characters of the part of a URL that follows
the scheme separator: everything up to the first slash, question mark
or hash, as urlparse delimits netloc. -/
def netloc_chars (rest : List Char) : List Char :=
  rest.takeWhile (fun c => c != '/' && c != '?' && c != '#')

/-- The scheme characters of a URL: everything before the first colon. -/
def scheme_chars (url : String) : List Char :=
  url.toList.takeWhile (fun c => c != ':')

/-- Lines 15-16 of get_domain (the same two lines are repeated at the
top of find_logo_urls): prepend https:// when the site string carries
neither an http:// nor an https:// scheme prefix. -/
def normalize (url : String) : String :=
  if py_startswith url "http://" || py_startswith url "https://" then url
  else "https://" ++ url

/-- get_domain, lines 13-19: normalize the URL, then return the netloc
component that urlparse extracts. urlparse is an external collaborator;
for the scheme-qualified URLs produced by normalize its netloc is the
text between the scheme separator and the next slash, question mark or
hash. -/
def get_domain (url : String) : String :=
  match drop_through ("://".toList) (normalize url).toList with
  | none => ""
  | some rest => String.mk (netloc_chars rest)

/-- Model of urllib.parse.urljoin, the external URL-resolution
collaborator, for the inputs this program produces: an absolute base
URL with an http or https scheme and no fragment, and a reference that
is either empty, absolute (contains a scheme separator),
protocol-relative, root-relative or relative. Dot-segment
normalization is not modelled; no claim depends on it. -/
def urljoin (base ref : String) : String :=
  if ref = "" then base
  else if strContains ref "://" then ref
  else if py_startswith ref "//" then String.mk (scheme_chars base) ++ ":" ++ ref
  else
    match drop_through ("://".toList) base.toList with
    | none => ref
    | some rest =>
      let nl := netloc_chars rest
      let origin := String.mk (scheme_chars base) ++ "://" ++ String.mk nl
      if py_startswith ref "/" then origin ++ ref
      else
        let path := (rest.drop nl.length).takeWhile (fun c => c != '?' && c != '#')
        let dir := (path.reverse.dropWhile (fun c => c != '/')).reverse
        let dir2 := if dir.isEmpty then ['/'] else dir
        origin ++ String.mk dir2 ++ ref

/-- The path component that urlparse extracts from a URL: after the
netloc when a scheme separator is present, stopping at the query or
fragment. Only its lower-cased suffix is inspected, by the extension
inference of download_logo. -/
def url_path_of (url : String) : String :=
  match drop_through ("://".toList) url.toList with
  | some rest =>
    let nl := netloc_chars rest
    String.mk ((rest.drop nl.length).takeWhile (fun c => c != '?' && c != '#'))
  | none => String.mk (url.toList.takeWhile (fun c => c != '?' && c != '#'))

/-- is_likely_logo, lines 82-106. The image bytes are represented by
the outcome of decoding them: none models a decode failure (PIL
raising, swallowed by the except clause), some (w, h) the decoded pixel
size. The float comparison max/min > 4 is exact over these naturals; a
zero smaller dimension is the ZeroDivisionError case, also swallowed by
the except clause. -/
def is_likely_logo (dims : Option (Nat × Nat)) (min_size max_size : Nat) : Bool :=
  match dims with
  | none => false
  | some (width, height) =>
    if width < min_size || height < min_size then false
    else if width > max_size || height > max_size then false
    else if (width == 16 && height == 16) || (width == 32 && height == 32) then true
    else if Nat.min width height == 0 then false
    else if Nat.max width height > 4 * Nat.min width height then false
    else true

/-- The rel attribute of a link element as BeautifulSoup returns it:
normally a list of tokens (rel is multi-valued), but the source also
handles a plain string, so both shapes are represented. -/
inductive RelAttr where
  | strs (l : List String)
  | str (s : String)

/-- An element of the parsed HTML document, carrying exactly the
attributes the scanner reads. An Option none models an absent
attribute, matching the defaults supplied to the BeautifulSoup get
calls; the class attribute is multi-valued. For an svg element, markup
is the full serialization str(svg). Elements the scanner never visits
are collapsed into the other constructor. -/
inductive Tag where
  | img (src alt : Option String) (classes : Option (List String)) (idAttr : Option String)
  | link (rel : Option RelAttr) (href : Option String)
  | svg (classes : Option (List String)) (idAttr : Option String) (markup : String)
  | other

/-- The doubly nested any-generator of the scanner: some term of terms
occurs as a substring of some attribute string of attrs. -/
def any_term_in (terms attrs : List String) : Bool :=
  terms.any (fun term => attrs.any (fun attr => strContains attr term))

/-- Loop body of Method 1 (lines 40-49): an img element yields a
candidate when logo, brand or header-image occurs in its lower-cased
src, alt, joined class list or id; the candidate is the src attribute
resolved against the page URL. -/
def img_candidate (url : String) : Tag → Option String
  | Tag.img src alt classes idAttr =>
    let img_src := src.getD ""
    let img_alt := py_lower (alt.getD "")
    let img_class := py_lower (String.intercalate " " (classes.getD []))
    let img_id := py_lower (idAttr.getD "")
    if any_term_in ["logo", "brand", "header-image"]
        [py_lower img_src, img_alt, img_class, img_id]
    then some (urljoin url img_src)
    else none
  | _ => none

/-- Loop body of Method 2 (lines 52-63): a link element yields a
candidate when icon, shortcut icon or apple-touch-icon occurs in its
lower-cased rel value and its href is present and nonempty; the
candidate is the href resolved against the page URL. -/
def link_candidate (url : String) : Tag → Option String
  | Tag.link rel href =>
    let relS :=
      match rel with
      | some (RelAttr.strs l) => py_lower (String.intercalate " " l)
      | some (RelAttr.str s) => py_lower s
      | none => py_lower (String.intercalate " " [])
    if ["icon", "shortcut icon", "apple-touch-icon"].any (fun t => strContains relS t) then
      let href_s := href.getD ""
      if href_s != "" then some (urljoin url href_s) else none
    else none
  | _ => none

/-- Loop body of Method 3 (lines 66-74): an svg element yields a
candidate when logo or brand occurs in its lower-cased joined class
list or id; the candidate is a data URL tagged as base64 but carrying
the raw serialized markup. -/
def svg_candidate : Tag → Option String
  | Tag.svg classes idAttr markup =>
    let svg_class := py_lower (String.intercalate " " (classes.getD []))
    let svg_id := py_lower (idAttr.getD "")
    if any_term_in ["logo", "brand"] [svg_class, svg_id]
    then some ("data:image/svg+xml;base64," ++ markup)
    else none
  | _ => none

/-- The scanning part of find_logo_urls (lines 37-76): one accumulating
list, filled by three passes over the document, one per heuristic, each
appending its matches in document order. -/
def scan_doc (url : String) (doc : List Tag) : List String :=
  let logo_urls : List String := []
  let logo_urls := doc.foldl (fun acc t =>
    match img_candidate url t with
    | some u => acc ++ [u]
    | none => acc) logo_urls
  let logo_urls := doc.foldl (fun acc t =>
    match link_candidate url t with
    | some u => acc ++ [u]
    | none => acc) logo_urls
  let logo_urls := doc.foldl (fun acc t =>
    match svg_candidate t with
    | some u => acc ++ [u]
    | none => acc) logo_urls
  logo_urls

/-- find_logo_urls (lines 21-80): normalize the site string, fetch the
page and scan it. The HTTP client and HTML parser are external
collaborators, represented by the fetch_page parameter: none models a
transport error or timeout (the except clause returns the empty list),
some (status, doc) a response with its parsed body. A non-200 status
also yields the empty list. -/
def find_logo_urls (fetch_page : String → Option (Nat × List Tag)) (url0 : String) :
    List String :=
  let url := normalize url0
  match fetch_page url with
  | none => []
  | some (status, doc) => if status != 200 then [] else scan_doc url doc

/-- The bytes of a fetched image, represented by what the validator can
observe of them: the outcome of decoding, none for undecodable bytes. -/
structure ImgBytes where
  dims : Option (Nat × Nat)
deriving DecidableEq

/-- Content written to a file: the data-URL branch writes text, the
HTTP branch writes the response bytes. -/
inductive FileContent where
  | text (s : String)
  | bytes (b : ImgBytes)
deriving DecidableEq

/-- An HTTP response to an image GET: status code, content-type header
(empty when the header is absent, matching the get default) and body. -/
structure HttpResp where
  status : Nat
  content_type : String
  content : ImgBytes

/-- The four extensions the fetcher can choose, plus its default. -/
def extList : List String := [".png", ".jpg", ".svg", ".ico"]

/-- The output file path of download_logo (lines 118 and 156):
os.path.join of the output folder with the name built from the domain,
for a folder without a trailing slash. -/
def logo_path (output_folder domain ext : String) : String :=
  output_folder ++ "/" ++ (domain ++ " - logo" ++ ext)

/-- Extension inference of download_logo (lines 131-154): first the
lower-cased content-type header, then the lower-cased URL path suffix,
defaulting to .png. -/
def get_extension (content_type url : String) : String :=
  let ct := py_lower content_type
  if strContains ct "png" then ".png"
  else if strContains ct "jpg" || strContains ct "jpeg" then ".jpg"
  else if strContains ct "svg" then ".svg"
  else if strContains ct "ico" then ".ico"
  else
    let url_path := py_lower (url_path_of url)
    if py_endswith url_path ".png" then ".png"
    else if py_endswith url_path ".jpg" || py_endswith url_path ".jpeg" then ".jpg"
    else if py_endswith url_path ".svg" then ".svg"
    else if py_endswith url_path ".ico" then ".ico"
    else ".png"

/-- download_logo (lines 108-164). The HTTP client is the fetch
parameter; none models a transport error or timeout, swallowed by the
except clause. The result pairs the returned path (None becomes none)
with the list of file writes performed, so that the on-disk effect of a
call is part of its value. A data URL is written as text after
splitting the URL on base64, and taking element 1, exactly as the
source does; a fetched image is written only after a 200 status and a
passing validation, with the inferred extension. -/
def download_logo (fetch : String → Option HttpResp) (url domain output_folder : String) :
    Option String × List (String × FileContent) :=
  if py_startswith url "data:image/svg+xml;base64," then
    let svg_content := (pySplit url "base64,").getD 1 ""
    let file_path := logo_path output_folder domain ".svg"
    (some file_path, [(file_path, FileContent.text svg_content)])
  else
    match fetch url with
    | none => (none, [])
    | some response =>
      if response.status != 200 then (none, [])
      else if !(is_likely_logo response.content.dims 16 500) then (none, [])
      else
        let ext := get_extension response.content_type url
        let file_path := logo_path output_folder domain ext
        (some file_path, [(file_path, FileContent.bytes response.content)])

/-- The candidate loop of process_website (lines 176-182), with its
observable behaviour made explicit: the first component lists the
candidates for which a download was attempted, in order; the second is
the path returned by the first successful download, if any; the third
collects the file writes of all attempts. The loop breaks at the first
candidate whose download returns a path. -/
def try_candidates (dl : String → Option String × List (String × FileContent)) :
    List String → List String × Option String × List (String × FileContent)
  | [] => ([], none, [])
  | u :: us =>
    let r := dl u
    match r.1 with
    | some p => ([u], some p, r.2)
    | none =>
      let rest := try_candidates dl us
      (u :: rest.1, rest.2.1, r.2 ++ rest.2.2)

/-- process_website (lines 166-185): resolve the domain, scan for
candidates, then run the candidate loop with download_logo. The result
keeps the successful path, if any, and the file writes performed. -/
def process_website (fetch_page : String → Option (Nat × List Tag))
    (fetch : String → Option HttpResp) (website output_folder : String) :
    Option String × List (String × FileContent) :=
  let domain := get_domain website
  let logo_urls := find_logo_urls fetch_page website
  let r := try_candidates (fun u => download_logo fetch u domain output_folder) logo_urls
  (r.2.1, r.2.2)

/-- Model of pandas unique, the external de-duplication collaborator:
the distinct values of the list in order of first appearance. The seen
accumulator holds values already emitted. -/
def pd_unique_aux (seen : List String) : List String → List String
  | [] => []
  | x :: xs => if x ∈ seen then pd_unique_aux seen xs else x :: pd_unique_aux (x :: seen) xs

/-- pandas Series.unique for this column. -/
def pd_unique (l : List String) : List String :=
  pd_unique_aux [] l

/-- The site-list part of extract_logos_from_parquet (lines 192-205).
The pandas loader is external: the table argument is none when
read_parquet raises (the error is reported and nothing is processed),
otherwise an association list from column name to column values, a
missing value being none. The result is the list of websites handed to
the worker pool, one submission per element, or none when the batch
aborts because the file was unreadable or the column is absent. -/
def extract_logos_from_parquet (table : Option (List (String × List (Option String))))
    (column_name : String) : Option (List String) :=
  match table with
  | none => none
  | some df =>
    match List.lookup column_name df with
    | none => none
    | some col => some (pd_unique (col.filterMap id))

/-- The argument handling of the entry point (lines 216-223): argv is
sys.argv, program name included. The first component is the process
exit status (sys.exit(1) on fewer than two entries; a completed run
exits with zero), the second the (parquet_file, column_name,
output_folder) triple the run proceeds with. -/
def main_model (argv : List String) : Nat × Option (String × String × String) :=
  if argv.length < 2 then (1, none)
  else
    let parquet_file := argv.getD 1 ""
    let column_name := if argv.length > 2 then argv.getD 2 "" else "domain"
    let output_folder := if argv.length > 3 then argv.getD 3 "" else "logo"
    (0, some (parquet_file, column_name, output_folder))

/-- A page fetcher used by closed instances: every page carries one img
element whose src matches the logo heuristic. -/
def demo_page : String → Option (Nat × List Tag) :=
  fun _ => some (200, [Tag.img (some "logo.png") none none none])

/-- An image fetcher used by closed instances: every GET returns a 200
PNG response decoding to 100 by 100 pixels. -/
def demo_fetch : String → Option HttpResp :=
  fun _ => some ⟨200, "image/png", ⟨some (100, 100)⟩⟩

/-- An image fetcher used by closed instances: every GET returns a 404
response. -/
def demo_fetch404 : String → Option HttpResp :=
  fun _ => some ⟨404, "", ⟨none⟩⟩

end LogoExtractor

namespace LogoExtractor

/-- C1: the validator with the default bounds 16 and 500 rejects a
10x10 image, accepts 16x16 and 32x32, rejects 600x600, rejects 100x500
(aspect ratio 5), accepts 100x300 (aspect ratio 3), and any decode
failure yields false; the final two conjuncts exhibit the check order,
with the lower-bound and upper-bound checks evaluated before the
favicon-size acceptance. -/
theorem is_likely_logo_spec :
    is_likely_logo (some (10, 10)) 16 500 = false ∧
    is_likely_logo (some (16, 16)) 16 500 = true ∧
    is_likely_logo (some (32, 32)) 16 500 = true ∧
    is_likely_logo (some (600, 600)) 16 500 = false ∧
    is_likely_logo (some (100, 500)) 16 500 = false ∧
    is_likely_logo (some (100, 300)) 16 500 = true ∧
    is_likely_logo none 16 500 = false ∧
    is_likely_logo (some (16, 16)) 17 500 = false ∧
    is_likely_logo (some (32, 32)) 16 31 = false := by
  decide

/-- C4: normalization prepends https:// exactly once to a site string
with neither scheme prefix, returns a schemed site string unchanged,
and get_domain returns the network-location component of the
normalized URL. -/
theorem normalize_get_domain_spec :
    (∀ s : String, py_startswith s "http://" = false → py_startswith s "https://" = false →
      normalize s = "https://" ++ s) ∧
    (∀ s : String, (py_startswith s "http://" = true ∨ py_startswith s "https://" = true) →
      normalize s = s) ∧
    get_domain "https://example.com/path" = "example.com" ∧
    get_domain "example.com" = "example.com" := by
  refine ⟨?_, ?_, by decide, by decide⟩
  · intro s h1 h2
    simp [normalize, h1, h2]
  · intro s h
    rcases h with h | h <;> simp [normalize, h]

/-- Closed instance of the C4 theorem at concrete inputs. -/
theorem normalize_get_domain_spec_witness :
    normalize "example.com" = "https://example.com" ∧
    normalize "http://x.io" = "http://x.io" := by
  constructor
  · rw [normalize_get_domain_spec.1 "example.com" (by decide) (by decide)]
    decide
  · exact normalize_get_domain_spec.2.1 "http://x.io" (Or.inl (by decide))

/-- An append-accumulating fold over per-element optional candidates is
the accumulator followed by the filterMap of the list. -/
theorem foldl_append_filterMap (f : Tag → Option String) (doc : List Tag)
    (acc : List String) :
    doc.foldl (fun a t =>
      match f t with
      | some u => a ++ [u]
      | none => a) acc = acc ++ doc.filterMap f := by
  induction doc generalizing acc with
  | nil => simp
  | cons t ts ih =>
    cases hf : f t <;> simp [List.filterMap_cons, hf, ih]

/-- C3: for every parsed document the scanner emits all Method 1
matches in document order, then all Method 2 matches in document order,
then all Method 3 matches in document order, with no de-duplication;
the second conjunct shows the heuristic order overriding document order
on a document listing the svg, link and img elements in reverse, and
the third shows a URL emitted twice when two heuristics match it. -/
theorem scan_doc_order_spec :
    (∀ url doc, scan_doc url doc =
      doc.filterMap (img_candidate url) ++ doc.filterMap (link_candidate url) ++
        doc.filterMap svg_candidate) ∧
    scan_doc "https://u.test"
      [Tag.svg (some ["logo"]) none "<svg></svg>",
       Tag.link (some (RelAttr.strs ["icon"])) (some "/favicon.ico"),
       Tag.img (some "/img/logo.png") none none none] =
      ["https://u.test/img/logo.png", "https://u.test/favicon.ico",
       "data:image/svg+xml;base64,<svg></svg>"] ∧
    scan_doc "https://u.test"
      [Tag.img (some "/logo.png") none none none,
       Tag.link (some (RelAttr.strs ["icon"])) (some "/logo.png")] =
      ["https://u.test/logo.png", "https://u.test/logo.png"] := by
  refine ⟨?_, by decide, by decide⟩
  intro url doc
  simp [scan_doc, foldl_append_filterMap]

/-- Prepending an empty attribute string does not change the outcome of
the term search used by Method 1, since none of its three search terms
is empty. -/
theorem any_term_in_empty_attr (rest : List String) :
    any_term_in ["logo", "brand", "header-image"] ("" :: rest) =
      any_term_in ["logo", "brand", "header-image"] rest := by
  simp [any_term_in, List.any_cons,
    show strContains "" "logo" = false by decide,
    show strContains "" "brand" = false by decide,
    show strContains "" "header-image" = false by decide]

/-- C10: an img element with a missing or empty src still yields a
candidate when its alt, class list or id matches, and that candidate is
the page URL itself (the empty src resolved against the page URL),
while a link element with a missing or empty href never yields a
candidate. -/
theorem empty_src_href_spec :
    (∀ (url : String) (src alt : Option String) (classes : Option (List String))
        (idAttr : Option String),
      src = none ∨ src = some "" →
      any_term_in ["logo", "brand", "header-image"]
        [py_lower (alt.getD ""), py_lower (String.intercalate " " (classes.getD [])),
         py_lower (idAttr.getD "")] = true →
      img_candidate url (Tag.img src alt classes idAttr) = some url) ∧
    (∀ (url : String) (rel : Option RelAttr),
      link_candidate url (Tag.link rel none) = none ∧
      link_candidate url (Tag.link rel (some "")) = none) ∧
    (∀ url : String, urljoin url "" = url) := by
  refine ⟨?_, ?_, fun url => by simp [urljoin]⟩
  · intro url src alt classes idAttr hsrc hmatch
    have hlow : py_lower "" = "" := by decide
    have hjoin : urljoin url "" = url := by simp [urljoin]
    rcases hsrc with rfl | rfl <;>
      simp only [img_candidate, Option.getD_none, Option.getD_some, hlow,
        any_term_in_empty_attr, hmatch, if_true, hjoin]
  · intro url rel
    constructor <;>
      · simp only [link_candidate, Option.getD]
        split <;> simp

/-- Closed instance of the C10 theorem at concrete inputs. -/
theorem empty_src_href_spec_witness :
    img_candidate "https://u.io" (Tag.img none (some "Site Logo") none none) =
      some "https://u.io" ∧
    link_candidate "https://u.io" (Tag.link (some (RelAttr.strs ["icon"])) none) = none := by
  constructor
  · exact empty_src_href_spec.1 "https://u.io" none (some "Site Logo") none none
      (Or.inl rfl) (by decide)
  · exact (empty_src_href_spec.2.1 "https://u.io" (some (RelAttr.strs ["icon"]))).1

/-- C2: the candidate loop attempts downloads in order and stops at the
first success: when every candidate before c fails and c succeeds with
path p, the attempted candidates are exactly the failing ones followed
by c, the later candidates are never attempted, and the loop returns
p. -/
theorem try_candidates_first_success
    (dl : String → Option String × List (String × FileContent))
    (l1 l2 : List String) (c p : String)
    (hfail : ∀ x ∈ l1, (dl x).1 = none) (hsucc : (dl c).1 = some p) :
    (try_candidates dl (l1 ++ c :: l2)).1 = l1 ++ [c] ∧
    (try_candidates dl (l1 ++ c :: l2)).2.1 = some p := by
  induction l1 with
  | nil =>
    simp [try_candidates, hsucc]
  | cons x xs ih =>
    have hx : (dl x).1 = none := hfail x (List.mem_cons_self x xs)
    have ihx := ih (fun y hy => hfail y (List.mem_cons_of_mem x hy))
    simp only [List.cons_append, try_candidates, hx, List.append_eq]
    exact ⟨by rw [ihx.1], by rw [ihx.2]⟩

/-- Closed instance of the C2 theorem: with three candidates of which
the first fails and the second succeeds, only the first two are
attempted. -/
theorem try_candidates_first_success_witness :
    (try_candidates
      (fun s => if s = "b" then (some "out/b", [("out/b", FileContent.text "x")])
                else (none, []))
      ["a", "b", "z"]).1 = ["a", "b"] ∧
    (try_candidates
      (fun s => if s = "b" then (some "out/b", [("out/b", FileContent.text "x")])
                else (none, []))
      ["a", "b", "z"]).2.1 = some "out/b" :=
  try_candidates_first_success
    (fun s => if s = "b" then (some "out/b", [("out/b", FileContent.text "x")])
              else (none, []))
    ["a"] ["z"] "b" "out/b" (by decide) (by decide)

/-- C6: a URL-based candidate whose response has a non-200 status, or
whose bytes fail validation, produces no result and no file write. -/
theorem download_failure_no_write (fetch : String → Option HttpResp)
    (url domain folder : String) (resp : HttpResp)
    (hnd : py_startswith url "data:image/svg+xml;base64," = false)
    (hf : fetch url = some resp)
    (h : resp.status ≠ 200 ∨ is_likely_logo resp.content.dims 16 500 = false) :
    download_logo fetch url domain folder = (none, []) := by
  rcases h with h | h <;>
    simp [download_logo, hnd, hf, h]

/-- Closed instance of the C6 theorem: a 404 response yields no result
and no write. -/
theorem download_failure_no_write_witness :
    download_logo demo_fetch404 "https://a.com/x.png" "a.com" "out" = (none, []) :=
  download_failure_no_write demo_fetch404 "https://a.com/x.png" "a.com" "out"
    ⟨404, "", ⟨none⟩⟩ (by decide) rfl (Or.inl (by decide))

/-- Membership in the de-duplicated list: a value appears exactly when
it is in the input and not among the values already seen. -/
theorem pd_unique_aux_mem (l : List String) :
    ∀ seen y, y ∈ pd_unique_aux seen l ↔ y ∈ l ∧ y ∉ seen := by
  induction l with
  | nil => intro seen y; simp [pd_unique_aux]
  | cons x xs ih =>
    intro seen y
    simp only [pd_unique_aux]
    by_cases hx : x ∈ seen
    · rw [if_pos hx, ih]
      constructor
      · rintro ⟨h1, h2⟩
        exact ⟨List.mem_cons_of_mem x h1, h2⟩
      · rintro ⟨h1, h2⟩
        rcases List.mem_cons.mp h1 with rfl | h1
        · exact absurd hx h2
        · exact ⟨h1, h2⟩
    · rw [if_neg hx]
      constructor
      · intro hm
        rcases List.mem_cons.mp hm with rfl | hm
        · exact ⟨List.mem_cons_self y xs, hx⟩
        · have := (ih (x :: seen) y).mp hm
          refine ⟨List.mem_cons_of_mem x this.1, fun hs => this.2 (List.mem_cons_of_mem x hs)⟩
      · rintro ⟨h1, h2⟩
        rcases List.mem_cons.mp h1 with rfl | h1
        · exact List.mem_cons_self y _
        · by_cases hyx : y = x
          · subst hyx; exact List.mem_cons_self y _
          · refine List.mem_cons_of_mem x ((ih (x :: seen) y).mpr ⟨h1, ?_⟩)
            intro hs
            rcases List.mem_cons.mp hs with h | h
            · exact hyx h
            · exact h2 h

/-- The de-duplicated list has no duplicate entries. -/
theorem pd_unique_aux_nodup (l : List String) :
    ∀ seen, (pd_unique_aux seen l).Nodup := by
  induction l with
  | nil => intro seen; simp [pd_unique_aux]
  | cons x xs ih =>
    intro seen
    simp only [pd_unique_aux]
    by_cases hx : x ∈ seen
    · rw [if_pos hx]; exact ih seen
    · rw [if_neg hx]
      refine List.nodup_cons.mpr ⟨?_, ih (x :: seen)⟩
      intro hmem
      exact ((pd_unique_aux_mem xs (x :: seen) x).mp hmem).2 (List.mem_cons_self x seen)

/-- C7: the batch runner schedules exactly the distinct non-null values
of the designated column, each exactly once; on the column domain with
values a.com, a.com, b.com, null it schedules exactly a.com then
b.com. -/
theorem batch_dedup_spec :
    extract_logos_from_parquet
      (some [("domain", [some "a.com", some "a.com", some "b.com", none])]) "domain" =
      some ["a.com", "b.com"] ∧
    ∀ col : List (Option String),
      (pd_unique (col.filterMap id)).Nodup ∧
      ∀ x, x ∈ pd_unique (col.filterMap id) ↔ some x ∈ col := by
  refine ⟨by decide, fun col => ⟨pd_unique_aux_nodup _ [], ?_⟩⟩
  intro x
  rw [pd_unique, pd_unique_aux_mem]
  simp [List.mem_filterMap]

/-- C9: the entry point exits with a nonzero status exactly when argv
has fewer than two entries, and with the input file as the only
argument it proceeds with exit status zero, column name domain and
output directory logo. -/
theorem main_args_spec :
    (∀ argv : List String, (main_model argv).1 ≠ 0 ↔ argv.length < 2) ∧
    (∀ prog file : String, main_model [prog, file] = (0, some (file, "domain", "logo"))) := by
  constructor
  · intro argv
    by_cases h : argv.length < 2 <;> simp [main_model, h]
  · intro prog file
    simp [main_model]

/-- Appending strings appends their character lists. -/
theorem toList_append (a b : String) : (a ++ b).toList = a.toList ++ b.toList := by
  cases a; cases b; rfl

/-- Rebuilding a string from its character list gives it back. -/
theorem mk_toList (s : String) : String.mk s.toList = s := by
  cases s; rfl

/-- Stripping a list from the front of itself followed by anything
leaves that anything. -/
theorem stripPre?_append : ∀ p m : List Char, stripPre? p (p ++ m) = some m := by
  intro p
  induction p with
  | nil => intro m; rfl
  | cons c cs ih => intro m; simp [stripPre?, ih]

/-- When the separator never occurs in the remaining input, the split
worker closes the current piece with the whole remainder, for every
fuel. -/
theorem splitGo_no_occ (c0 : Char) (sep0 : List Char) :
    ∀ (fuel : Nat) (m cur : List Char), hasOcc (c0 :: sep0) m = false →
      splitGo c0 sep0 fuel m cur = [cur.reverse ++ m] := by
  intro fuel
  induction fuel with
  | zero => intro m cur _; rfl
  | succ f ih =>
    intro m cur hm
    cases m with
    | nil => simp [splitGo]
    | cons c cs =>
      simp only [hasOcc, Bool.or_eq_false_iff] at hm
      have h1 : stripPre? (c0 :: sep0) (c :: cs) = none := by
        cases hs : stripPre? (c0 :: sep0) (c :: cs) with
        | none => rfl
        | some r => rw [hs] at hm; simp at hm
      rw [splitGo, h1]
      rw [ih cs (c :: cur) hm.2]
      simp

/-- Characters that can never begin the separator are moved unchanged
from the input to the current piece by the split worker. -/
theorem splitGo_skip (c0 : Char) (sep0 : List Char) :
    ∀ (a : List Char) (fuel : Nat) (rest cur : List Char),
      (∀ x ∈ a, x ≠ c0) → a.length ≤ fuel →
      splitGo c0 sep0 fuel (a ++ rest) cur =
        splitGo c0 sep0 (fuel - a.length) rest (a.reverse ++ cur) := by
  intro a
  induction a with
  | nil => intro fuel rest cur _ _; simp
  | cons x xs ih =>
    intro fuel rest cur hne hlen
    cases fuel with
    | zero => simp at hlen
    | succ f =>
      have hx : x ≠ c0 := hne x (List.mem_cons_self x xs)
      have h1 : stripPre? (c0 :: sep0) (x :: (xs ++ rest)) = none := by
        simp [stripPre?, hx]
      rw [List.cons_append, splitGo, h1]
      rw [ih f rest (x :: cur) (fun y hy => hne y (List.mem_cons_of_mem x hy))
        (Nat.lt_succ_iff.mp (Nat.lt_of_lt_of_le (Nat.lt_succ_self _)
          (by simpa using hlen)))]
      simp [Nat.succ_sub_succ, List.append_assoc]

/-- Splitting the data-URL prefix followed by base64-free markup on the
separator base64, yields the prefix head and the markup. -/
theorem pySplit_data_url (markup : String) (h : strContains markup "base64," = false) :
    pySplit ("data:image/svg+xml;base64," ++ markup) "base64," =
      ["data:image/svg+xml;", markup] := by
  have hP : ("data:image/svg+xml;base64,".toList : List Char)
      = "data:image/svg+xml;".toList ++ ('b' :: "ase64,".toList) := by decide
  have hlist : ("data:image/svg+xml;base64," ++ markup).toList
      = "data:image/svg+xml;".toList ++ ('b' :: ("ase64,".toList ++ markup.toList)) := by
    rw [toList_append, hP, List.append_assoc, List.cons_append]
  have hA : ∀ x ∈ "data:image/svg+xml;".toList, x ≠ 'b' := by decide
  have hnocc : hasOcc ('b' :: "ase64,".toList) markup.toList = false := by
    rw [show ('b' :: "ase64,".toList) = "base64,".toList from by decide]
    exact h
  have hstrip : stripPre? ('b' :: "ase64,".toList)
      ('b' :: ("ase64,".toList ++ markup.toList)) = some markup.toList := by
    have := stripPre?_append ('b' :: "ase64,".toList) markup.toList
    simpa using this
  show (splitGo 'b' "ase64,".toList
      ("data:image/svg+xml;base64," ++ markup).toList.length
      ("data:image/svg+xml;base64," ++ markup).toList []).map String.mk = _
  rw [hlist]
  have h19 : ("data:image/svg+xml;".toList : List Char).length = 19 := by decide
  have h6 : ("ase64,".toList : List Char).length = 6 := by decide
  have hlen : ("data:image/svg+xml;".toList
      ++ ('b' :: ("ase64,".toList ++ markup.toList))).length
      = 26 + markup.toList.length := by
    rw [List.length_append, List.length_cons, List.length_append, h19, h6]
    omega
  rw [hlen]
  rw [splitGo_skip 'b' "ase64,".toList "data:image/svg+xml;".toList
    (26 + markup.toList.length) _ [] hA (by rw [h19]; omega)]
  have hfuel : 26 + markup.toList.length - "data:image/svg+xml;".toList.length
      = (6 + markup.toList.length) + 1 := by
    rw [h19]
    omega
  rw [hfuel, splitGo, hstrip]
  show List.map String.mk (("data:image/svg+xml;".toList.reverse ++ []).reverse ::
      splitGo 'b' "ase64,".toList (6 + markup.toList.length) markup.toList [])
      = ["data:image/svg+xml;", markup]
  rw [splitGo_no_occ 'b' "ase64,".toList _ markup.toList [] hnocc]
  simp [mk_toList]

/-- C5 counterexample: an inline-SVG candidate whose markup itself
contains the text base64, (as the scanner can produce, first conjunct)
is written truncated at that occurrence, so the written content is not
the full serialized markup. -/
theorem inline_svg_truncation_cex :
    svg_candidate (Tag.svg (some ["logo"]) none "<svg id=logo>base64,x</svg>") =
      some ("data:image/svg+xml;base64," ++ "<svg id=logo>base64,x</svg>") ∧
    (download_logo (fun _ => none)
        ("data:image/svg+xml;base64," ++ "<svg id=logo>base64,x</svg>") "a.com" "out") =
      (some "out/a.com - logo.svg",
       [("out/a.com - logo.svg", FileContent.text "<svg id=logo>")]) ∧
    "<svg id=logo>" ≠ "<svg id=logo>base64,x</svg>" := by
  decide

/-- C5 amended: for every inline-SVG candidate, download skips
validation and the image fetcher entirely, always succeeds, and writes
the text after the data-URL prefix, up to any further occurrence of
base64,, directly (not base64-decoded) to the file named
domain - logo.svg under the output directory; whenever the markup does
not contain base64, that written content is the full serialized
markup. -/
theorem download_inline_svg_amended (fetch : String → Option HttpResp)
    (markup domain folder : String) (h : strContains markup "base64," = false) :
    download_logo fetch ("data:image/svg+xml;base64," ++ markup) domain folder =
      (some (logo_path folder domain ".svg"),
       [(logo_path folder domain ".svg", FileContent.text markup)]) := by
  have hstart : py_startswith ("data:image/svg+xml;base64," ++ markup)
      "data:image/svg+xml;base64," = true := by
    unfold py_startswith
    rw [toList_append, stripPre?_append]
    rfl
  have hsplit := pySplit_data_url markup h
  simp [download_logo, hstart, hsplit]

/-- Closed instance of the amended C5 theorem at a concrete markup. -/
theorem download_inline_svg_amended_witness :
    download_logo (fun _ => none)
      ("data:image/svg+xml;base64," ++ "<svg class=logo>x</svg>") "a.com" "out" =
      (some "out/a.com - logo.svg",
       [("out/a.com - logo.svg", FileContent.text "<svg class=logo>x</svg>")]) := by
  have := download_inline_svg_amended (fun _ => none) "<svg class=logo>x</svg>"
    "a.com" "out" (by decide)
  simpa [logo_path] using this

/-- The inferred extension is always one of the four known extensions
(the fallthrough default being .png). -/
theorem get_extension_mem (ct url : String) : get_extension ct url ∈ extList := by
  unfold get_extension
  dsimp only
  repeat' split
  all_goals simp [extList]

/-- Every extension the fetcher can choose is four characters long. -/
theorem ext_len (e : String) (he : e ∈ extList) : e.toList.length = 4 := by
  simp only [extList, List.mem_cons, List.not_mem_nil, or_false] at he
  rcases he with rfl | rfl | rfl | rfl <;> decide

/-- Every file write performed by download_logo targets the path built
from the output folder, the domain passed in, and one of the four known
extensions. -/
theorem download_write_paths (fetch : String → Option HttpResp)
    (u d folder : String) :
    ∀ pw ∈ (download_logo fetch u d folder).2,
      ∃ e ∈ extList, pw.1 = logo_path folder d e := by
  intro pw hpw
  by_cases hd : py_startswith u "data:image/svg+xml;base64," = true
  · simp only [download_logo, hd, if_true, List.mem_singleton] at hpw
    exact ⟨".svg", by simp [extList], by rw [hpw]⟩
  · rcases hfu : fetch u with _ | resp
    · simp [download_logo, hd, hfu] at hpw
    · by_cases hs : (resp.status != 200) = true
      · simp [download_logo, hd, hfu, hs] at hpw
      · by_cases hv : (!is_likely_logo resp.content.dims 16 500) = true
        · simp [download_logo, hd, hfu, hs, hv] at hpw
        · simp only [download_logo, hd, hfu, hs, hv, if_false, Bool.false_eq_true,
            List.mem_singleton] at hpw
          exact ⟨get_extension resp.content_type u, get_extension_mem _ _, by rw [hpw]⟩

/-- Every file write performed by the candidate loop comes from the
download of one of the candidates. -/
theorem try_candidates_writes
    (dl : String → Option String × List (String × FileContent)) :
    ∀ (urls : List String) (pw : String × FileContent),
      pw ∈ (try_candidates dl urls).2.2 → ∃ u ∈ urls, pw ∈ (dl u).2 := by
  intro urls
  induction urls with
  | nil => intro pw hpw; simp [try_candidates] at hpw
  | cons u us ih =>
    intro pw hpw
    simp only [try_candidates] at hpw
    split at hpw
    · exact ⟨u, List.mem_cons_self u us, hpw⟩
    · rcases List.mem_append.mp hpw with hcase | hcase
      · exact ⟨u, List.mem_cons_self u us, hcase⟩
      · obtain ⟨v, hv, hm⟩ := ih pw hcase
        exact ⟨v, List.mem_cons_of_mem u hv, hm⟩

/-- Output paths built from different domains differ, because the
suffix starting at the text - logo always has the same length. -/
theorem logo_path_inj (folder d1 d2 e1 e2 : String)
    (h1 : e1 ∈ extList) (h2 : e2 ∈ extList)
    (heq : logo_path folder d1 e1 = logo_path folder d2 e2) : d1 = d2 := by
  have hl : (logo_path folder d1 e1).toList = (logo_path folder d2 e2).toList := by
    rw [heq]
  simp only [logo_path, toList_append, List.append_assoc] at hl
  have hl2 := List.append_cancel_left hl
  have hl3 := List.append_cancel_left hl2
  have hlen : (" - logo".toList ++ e1.toList).length
      = (" - logo".toList ++ e2.toList).length := by
    rw [List.length_append, List.length_append, ext_len e1 h1, ext_len e2 h2]
  have hd := (List.append_inj' hl3 hlen).1
  have hmk : String.mk d1.toList = String.mk d2.toList := by rw [hd]
  rwa [mk_toList, mk_toList] at hmk

/-- C8 counterexample: the distinct site strings a.com and
https://a.com both survive the exact-string de-duplication, yet share
the domain a.com and write the very same file name, so write targets of
distinct surviving sites are not disjoint. -/
theorem same_domain_sites_same_write_cex :
    "a.com" ≠ "https://a.com" ∧
    get_domain "a.com" = get_domain "https://a.com" ∧
    (process_website demo_page demo_fetch "a.com" "out").2.map Prod.fst =
      ["out/a.com - logo.png"] ∧
    (process_website demo_page demo_fetch "https://a.com" "out").2.map Prod.fst =
      ["out/a.com - logo.png"] := by
  decide

/-- C8 amended: for every two site strings whose resolved domains
differ, processing them writes files with disjoint names, since each
site writes only files named by its own domain with a fixed-length
extension. -/
theorem process_writes_disjoint (fp1 fp2 : String → Option (Nat × List Tag))
    (fetch1 fetch2 : String → Option HttpResp) (s1 s2 folder : String)
    (h : get_domain s1 ≠ get_domain s2) :
    ∀ p, p ∈ (process_website fp1 fetch1 s1 folder).2.map Prod.fst →
      p ∉ (process_website fp2 fetch2 s2 folder).2.map Prod.fst := by
  intro p hp1 hp2
  obtain ⟨pw1, hmem1, hfst1⟩ := List.mem_map.mp hp1
  obtain ⟨pw2, hmem2, hfst2⟩ := List.mem_map.mp hp2
  simp only [process_website] at hmem1 hmem2
  obtain ⟨u1, _, hw1⟩ := try_candidates_writes _ _ _ hmem1
  obtain ⟨u2, _, hw2⟩ := try_candidates_writes _ _ _ hmem2
  obtain ⟨e1, he1, hp1e⟩ := download_write_paths _ _ _ _ _ hw1
  obtain ⟨e2, he2, hp2e⟩ := download_write_paths _ _ _ _ _ hw2
  apply h
  apply logo_path_inj folder _ _ e1 e2 he1 he2
  rw [← hp1e, ← hp2e, hfst1, hfst2]

/-- Closed instance of the amended C8 theorem: the file a.com writes is
never among the files b.org writes. -/
theorem process_writes_disjoint_witness :
    "out/a.com - logo.png" ∉
      (process_website demo_page demo_fetch "b.org" "out").2.map Prod.fst :=
  process_writes_disjoint demo_page demo_page demo_fetch demo_fetch
    "a.com" "b.org" "out" (by decide) "out/a.com - logo.png" (by decide)

end LogoExtractor
